import Mathlib

/-!
Verification of the FWinPhotoViewer core (src/app.py) against its
natural-language specification.

The embedding models:
* `QTransform` restricted to the 90-degree/mirror subgroup as 2x2 integer
  matrices acting on row vectors (Qt's convention: a point `p` is mapped to
  `p * M`, and each `scale`/`rotate` call left-multiplies the current matrix,
  so the last-called operation is applied first to points).
* EXIF metadata as an association list of (tagId, value) pairs; a read that
  raises is an `Except.error`.
* paths as plain strings, with `pathlib` helpers (`name`, `suffix`, `stem`,
  `parent`) reimplemented over `List Char`; `Path.resolve` (which consults
  the filesystem's symlink structure) is a parameter of the operations that
  use it.
* the GUI event handlers of `MainWindow` as pure transitions on an `AppState`
  record; dialogs and decoder backends are inputs.
-/

namespace FWin

/-! ### QTransform (2x2 integer matrix, row-vector convention) -/

structure M2 where
  a : Int
  b : Int
  c : Int
  d : Int
deriving DecidableEq, Repr

def M2.mul (m n : M2) : M2 :=
  ⟨m.a * n.a + m.b * n.c, m.a * n.b + m.b * n.d,
   m.c * n.a + m.d * n.c, m.c * n.b + m.d * n.d⟩

def M2.id : M2 := ⟨1, 0, 0, 1⟩

/-- `QTransform::scale(sx, sy)`: left-multiplies the current matrix by
`diag(sx, sy)` (Qt multiplies row 0 by `sx` and row 1 by `sy`). -/
def qscale (sx sy : Int) (t : M2) : M2 := M2.mul ⟨sx, 0, 0, sy⟩ t

/-- The rotation matrix Qt uses for `QTransform::rotate(deg)` at the three
angles occurring in the source (positive angles are clockwise because the
y axis points down). -/
def rotM (deg : Int) : M2 :=
  if deg = 90 then ⟨0, 1, -1, 0⟩
  else if deg = -90 then ⟨0, -1, 1, 0⟩
  else if deg = 180 then ⟨-1, 0, 0, -1⟩
  else M2.id

/-- `QTransform::rotate(deg)`: left-multiplies the current matrix. -/
def qrotate (deg : Int) (t : M2) : M2 := M2.mul (rotM deg) t

/-! ### Orientation normalizer (`_apply_exif_orientation`, src/app.py:28-61) -/

/-- The transform built by the `if orientation == 2 ... elif ...` ladder of
`_apply_exif_orientation`, starting from the identity `QTransform()`. -/
def orientTransform (o : Int) : M2 :=
  if o = 2 then qscale (-1) 1 M2.id
  else if o = 3 then qrotate 180 M2.id
  else if o = 4 then qscale 1 (-1) M2.id
  else if o = 5 then qrotate 90 (qscale (-1) 1 M2.id)
  else if o = 6 then qrotate 90 M2.id
  else if o = 7 then qrotate (-90) (qscale (-1) 1 M2.id)
  else if o = 8 then qrotate (-90) M2.id
  else M2.id

/-- EXIF tag id of the Orientation field (`ExifTags.TAGS` maps 274 to
the string "Orientation"); the source's loop picks the first dict entry
whose tag name is "Orientation". -/
def lookupOrientation (exif : List (Nat × Int)) : Option Int :=
  (exif.find? (fun kv => kv.1 == 274)).map (fun kv => kv.2)

/-- `_apply_exif_orientation`, at the level of the transform it applies.
`Except.error` models `Image.open`/`_getexif` raising (swallowed by the
bare `except Exception: pass`); `.ok exif` with no 274 entry models an
absent tag (including `_getexif()` returning `None`, coerced to `{}`). -/
def apply_exif_orientation (exifRead : Except Unit (List (Nat × Int))) : M2 :=
  match exifRead with
  | .error _ => M2.id
  | .ok exif =>
    match lookupOrientation exif with
    | none => M2.id
    | some o => orientTransform o

/-- Modelled from the spec: the documented 8-way mapping, as matrices in the
same row-vector convention (`p * M`): 1 identity, 2 mirror-horizontal,
3 rotate-180, 4 mirror-vertical, 5 transpose, 6 rotate-90-CW, 7 transverse,
8 rotate-90-CCW; anything else is the identity. -/
def specOrientMap (o : Int) : M2 :=
  if o = 2 then ⟨-1, 0, 0, 1⟩
  else if o = 3 then ⟨-1, 0, 0, -1⟩
  else if o = 4 then ⟨1, 0, 0, -1⟩
  else if o = 5 then ⟨0, 1, 1, 0⟩
  else if o = 6 then ⟨0, 1, -1, 0⟩
  else if o = 7 then ⟨0, -1, -1, 0⟩
  else if o = 8 then ⟨0, -1, 1, 0⟩
  else M2.id

/-- Modelled from the spec: tag present maps through the documented table,
tag absent or any parse error degrades to the identity. -/
def specOrientOf (exifRead : Except Unit (List (Nat × Int))) : M2 :=
  match exifRead with
  | .error _ => M2.id
  | .ok exif =>
    match lookupOrientation exif with
    | none => M2.id
    | some o => specOrientMap o

/-! ### Path strings

Python compares path strings by code point; we define the corresponding
order on Lean strings through their character lists (Lean's built-in
`String` order is kernel-opaque, the list order is not). -/

/-- Python's lexicographic-by-code-point order on plain strings (`str`).
This is the "full path string ascending" order the spec speaks of; note
that `sorted()` over `pathlib.Path` objects uses the component-wise order
`pyPathLe` defined below, which can disagree with it. -/
def pyLe (s t : String) : Prop := s.data ≤ t.data

instance : DecidableRel pyLe := fun s t =>
  inferInstanceAs (Decidable (s.data ≤ t.data))

instance : IsTrans String pyLe :=
  ⟨fun _ _ _ h h' => le_trans h h'⟩

instance : IsAntisymm String pyLe :=
  ⟨fun a b h h' => by
    cases a; cases b
    exact congrArg String.mk (le_antisymm h h')⟩

instance : IsTotal String pyLe :=
  ⟨fun a b => le_total a.data b.data⟩

instance : IsRefl String pyLe := ⟨fun a => le_refl a.data⟩

/-! ### pathlib helpers (`Path.name`, `.suffix`, `.stem`, `.parent`),
reimplemented over `List Char` so that everything reduces. -/

/-- Split a character list on `'/'` (like Python `str.split("/")`,
which never returns an empty list). -/
def splitPath : List Char → List (List Char)
  | [] => [[]]
  | c :: cs =>
    match splitPath cs with
    | [] => [[c]]
    | g :: gs => if c = '/' then [] :: g :: gs else (c :: g) :: gs

/-- Rejoin what `splitPath` split (proof device: shows `splitPath` loses no
information, so the component-wise path order below is antisymmetric). -/
def joinParts : List (List Char) → List Char
  | [] => []
  | [g] => g
  | g :: g' :: gs => g ++ '/' :: joinParts (g' :: gs)

/-- The component tuple `pathlib` compares paths by: Python 3.11's
`PurePath.__lt__` compares `_cparts`, the list of path components, as a
tuple of strings. For the slash-normalized paths produced by `rglob`, the
only difference from `splitPath` is that pathlib's root component is
`"/"` where ours is `""`; since that head is identical across the absolute
paths being compared, the induced order is the same. -/
def pathParts (p : String) : List (List Char) := splitPath p.data

/-- `sorted()` on `pathlib.Path`s: component-wise (tuple) order, NOT the
order of the full path strings — e.g. `/f/a/x.jpg` sorts before `/f/a.jpg`
because the component `a` is shorter than `a.jpg`, while as strings
`'.' < '/'` orders them the other way. -/
def pyPathLe (s t : String) : Prop := pathParts s ≤ pathParts t

instance : DecidableRel pyPathLe := fun s t =>
  inferInstanceAs (Decidable (pathParts s ≤ pathParts t))

instance : IsTrans String pyPathLe :=
  ⟨fun _ _ _ h h' => le_trans h h'⟩

instance : IsTotal String pyPathLe :=
  ⟨fun a b => le_total (pathParts a) (pathParts b)⟩

instance : IsRefl String pyPathLe := ⟨fun a => le_refl (pathParts a)⟩

instance : IsAntisymm String pyPathLe := by
  constructor
  intro a b hab hba
  have hne : ∀ cs : List Char, splitPath cs ≠ [] := by
    intro cs
    induction cs with
    | nil => simp [splitPath]
    | cons c cs ih =>
      simp only [splitPath]
      cases h : splitPath cs with
      | nil => simp
      | cons g gs => by_cases hc : c = '/' <;> simp [hc]
  have hjoin : ∀ cs : List Char, joinParts (splitPath cs) = cs := by
    intro cs
    induction cs with
    | nil => rfl
    | cons c cs ih =>
      simp only [splitPath]
      cases h : splitPath cs with
      | nil => exact absurd h (hne cs)
      | cons g gs =>
        rw [h] at ih
        show joinParts (if c = '/' then [] :: g :: gs else (c :: g) :: gs)
          = c :: cs
        by_cases hc : c = '/'
        · rw [if_pos hc, hc]
          show '/' :: joinParts (g :: gs) = '/' :: cs
          rw [ih]
        · rw [if_neg hc]
          cases gs with
          | nil =>
            have hg : g = cs := ih
            show c :: g = c :: cs
            rw [hg]
          | cons g' gs' =>
            have hg : g ++ '/' :: joinParts (g' :: gs') = cs := ih
            show c :: (g ++ '/' :: joinParts (g' :: gs')) = c :: cs
            rw [hg]
  have hparts : pathParts a = pathParts b := le_antisymm hab hba
  have hdata : a.data = b.data := by
    rw [← hjoin a.data, ← hjoin b.data]
    exact congrArg joinParts hparts
  cases a
  cases b
  exact congrArg String.mk hdata

/-- `Path(p).name`: the last `/`-separated component. -/
def nameChars (p : String) : List Char := (splitPath p.data).getLastD []

/-- Index of the last `'.'` in a name, if any (Python `name.rfind('.')`). -/
def lastDotIdx (n : List Char) : Option Nat :=
  match n.reverse.findIdx? (fun c => c = '.') with
  | none => none
  | some j => some (n.length - 1 - j)

/-- `PurePath.suffix` on a name: `name[i:]` where `i = name.rfind('.')`,
provided `0 < i < len(name) - 1`, else the empty string. -/
def nameSuffix (n : List Char) : List Char :=
  match lastDotIdx n with
  | none => []
  | some i => if 0 < i ∧ i < n.length - 1 then n.drop i else []

/-- `PurePath.stem` on a name: the name with its suffix removed. -/
def nameStem (n : List Char) : List Char :=
  match lastDotIdx n with
  | none => n
  | some i => if 0 < i ∧ i < n.length - 1 then n.take i else n

/-- `Path(p).suffix`. -/
def suffixOf (p : String) : String := ⟨nameSuffix (nameChars p)⟩

/-- `Path(p).name` as a string. -/
def nameOf (p : String) : String := ⟨nameChars p⟩

/-- `Path(p).stem` of the last component. -/
def stemOf (p : String) : String := ⟨nameStem (nameChars p)⟩

/-- `str.lower()` (ASCII, which covers the supported extensions). -/
def lowerStr (s : String) : String := ⟨s.data.map Char.toLower⟩

/-- `Path(p).parent`: all components but the last, `"."` for a bare name,
`"/"` when only the root remains. -/
def parentOf (p : String) : String :=
  match (splitPath p.data).dropLast with
  | [] => "."
  | [[]] => "/"
  | init => ⟨(List.intercalate ['/'] init)⟩

/-! ### File enumerator (`MainWindow.choose_folder`, src/app.py:226-229) -/

/-- `IMAGE_EXTS` (src/app.py:24). -/
def IMAGE_EXTS : List String :=
  [".jpg", ".jpeg", ".png", ".webp", ".bmp", ".gif", ".heic", ".heif"]

/-- Kind of a filesystem entry yielded by `Path.rglob("*")`. -/
inductive FileKind where
  | file
  | dir
  | symlinkToFile
  | symlinkToDir
deriving DecidableEq, Repr

/-- A filesystem entry: its full path and what it is. -/
structure Entry where
  path : String
  kind : FileKind
deriving DecidableEq, Repr

/-- Python `Path.is_file()` follows symlinks: true for regular files and
symlinks to regular files. -/
def isFileKind : FileKind → Bool
  | .file => true
  | .symlinkToFile => true
  | .dir => false
  | .symlinkToDir => false

/-- The filter of the list comprehension in `choose_folder`:
`p.suffix.lower() in IMAGE_EXTS and p.is_file()`. -/
def qualifies (e : Entry) : Bool :=
  IMAGE_EXTS.contains (lowerStr (suffixOf e.path)) && isFileKind e.kind

/-- `sorted([p for p in folder.rglob("*") if ...])`: the enumerator, as a
function of the raw traversal (in whatever order the filesystem yields it).
`sorted` compares `Path` objects, i.e. component tuples (`pyPathLe`), not
full path strings. -/
def enumerate (entries : List Entry) : List String :=
  List.insertionSort pyPathLe ((entries.filter qualifies).map Entry.path)

/-! ### Favorites store (src/app.py:275-303)

JSON values as produced by `json.loads`, together with just enough of
Python's dynamic semantics (`dict.get`, iteration, `Path(...)`) to follow
`_load_favorites` faithfully: any step that would raise lands in the
`except Exception` handler, which sets the favorites to the empty set. -/

/-- A parsed JSON value (`json.loads` output). Object keys are strings. -/
inductive PyVal where
  | null
  | bool (b : Bool)
  | int (n : Int)
  | str (s : String)
  | list (xs : List PyVal)
  | dict (kvs : List (String × PyVal))

/-- Python iteration (`for p in favs`): strings yield their characters as
one-character strings, lists their elements, dicts their keys; numbers,
booleans and `None` raise `TypeError` (modelled as `none`). -/
def pyIter : PyVal → Option (List PyVal)
  | .str s => some (s.data.map (fun c => .str ⟨[c]⟩))
  | .list xs => some xs
  | .dict kvs => some (kvs.map (fun kv => .str kv.1))
  | _ => none

/-- `Path(p)`: succeeds exactly on strings (anything else raises
`TypeError`). -/
def pathOfVal : PyVal → Option String
  | .str s => some s
  | _ => none

/-- `{Path(p) for p in elems}` element-wise: the whole comprehension
raises (yields `none`) as soon as one element is not a string. -/
def pathsOfVals : List PyVal → Option (List String)
  | [] => some []
  | v :: vs =>
    match pathOfVal v, pathsOfVals vs with
    | some p, some ps => some (p :: ps)
    | _, _ => none

/-- `MainWindow._load_favorites` (src/app.py:290-297) as a function of the
favorites file's state: `none` = file missing (favorites stay at their
initial empty value), `.error` = unreadable file or JSON parse error.
A Python set is modelled throughout by the duplicate-free list of its
elements (here: `dedup`, since `{Path(p) for p in favs}` deduplicates). -/
def load_favorites (fileRead : Option (Except Unit PyVal)) : List String :=
  match fileRead with
  | none => []
  | some (.error _) => []
  | some (.ok data) =>
    match data with
    | .dict kvs =>
      let favs := (kvs.lookup "favorites").getD (.list [])
      match pyIter favs with
      | none => []
      | some elems =>
        match pathsOfVals elems with
        | none => []
        | some paths => paths.dedup
    | _ => []

/-- The membership flip inside `MainWindow.toggle_favorite`
(src/app.py:279-282): `remove` if present, `add` otherwise. -/
def toggle (favorites : List String) (p : String) : List String :=
  if p ∈ favorites then favorites.erase p else favorites ++ [p]

/-- `sorted(self.favorites)`: the elements of the set in ascending
`pathlib` order, which compares paths component-wise (`pyPathLe`), not by
their full string form. -/
def fav_sorted (favorites : List String) : List String :=
  List.insertionSort pyPathLe favorites

/-- The list of strings written by `_fav_json_payload` (src/app.py:287-288):
`[str(p.resolve()) for p in sorted(self.favorites)]`. `resolve` is the
filesystem's canonicalization (it follows symlinks, so it is an input of
the model). -/
def payload_strings (resolve : String → String) (favorites : List String) :
    List String :=
  (fav_sorted favorites).map resolve

/-- `MainWindow._fav_json_payload`: the JSON object that `_save_favorites`
writes out in full on every save. -/
def fav_json_payload (resolve : String → String) (favorites : List String) :
    PyVal :=
  .dict [("favorites", .list ((payload_strings resolve favorites).map .str))]

/-! ### Image decoder (`load_image`, src/app.py:71-89) -/

/-- A decoded PIL image (already `convert("RGBA")`-able; content abstract). -/
structure PILImage where
  tag : Nat
deriving DecidableEq, Repr

/-- A `QImage`: either a raster produced by a decoder backend (possibly the
null image `QImageReader.read` returns on failure) or the result of
`QImage.transformed`. -/
inductive QImage where
  | raster (isNull : Bool) (tag : Nat)
  | transformed (img : QImage) (t : M2)
deriving DecidableEq, Repr

def QImage.isNull : QImage → Bool
  | .raster n _ => n
  | .transformed img _ => img.isNull

/-- `pil_to_qimage` (src/app.py:64-69): a successfully loaded PIL image
always yields a non-null RGBA `QImage`. -/
def pil_to_qimage (im : PILImage) : QImage := .raster false im.tag

/-- The image part of `_apply_exif_orientation`: the transform is applied
only when it is not the identity (`if not transform.isIdentity()`). -/
def apply_exif_to_image (exifRead : Except Unit (List (Nat × Int)))
    (img : QImage) : QImage :=
  let t := apply_exif_orientation exifRead
  if t = M2.id then img else .transformed img t

structure QPixmap where
  img : QImage
deriving DecidableEq, Repr

/-- Everything the environment contributes to one `load_image` call:
the outcome of `Image.open(path)` + `im.load()` (HEIC path; `.error`
models any raised exception), the `QImageReader(str(path)).read()` result
(a C++ call that reports failure as a null image, never an exception), and
the EXIF metadata read performed by `_apply_exif_orientation`. -/
structure DecodeEnv where
  pilOpen : Except Unit PILImage
  qtRead : QImage
  exifRead : Except Unit (List (Nat × Int))

/-- `load_image` (src/app.py:71-89). -/
def load_image (path : String) (env : DecodeEnv) : Option QPixmap :=
  let ext := lowerStr (suffixOf path)
  if ext = ".heic" ∨ ext = ".heif" then
    match env.pilOpen with
    | .error _ => none
    | .ok im => some ⟨apply_exif_to_image env.exifRead (pil_to_qimage im)⟩
  else
    if env.qtRead.isNull then none
    else some ⟨apply_exif_to_image env.exifRead env.qtRead⟩

/-! ### Main-window state and event handlers (src/app.py:159-303) -/

/-- The mutable state of `MainWindow` that the claims are about, plus a
model of the favorites file: `persisted` is its content after our last
write, `writeCount` counts calls to `_save_favorites`. -/
structure AppState where
  folder : Option String
  files : List String
  index : Int
  favorites : List String
  displayed : Option QPixmap
  persisted : Option PyVal
  writeCount : Nat

/-- `MainWindow.__init__` (src/app.py:172-177): empty navigation state,
index `-1`, favorites loaded from the favorites file. -/
def initState (startup : Option (Except Unit PyVal)) : AppState :=
  { folder := none
    files := []
    index := -1
    favorites := load_favorites startup
    displayed := none
    persisted := match startup with
      | some (.ok v) => some v
      | _ => none
    writeCount := 0 }

/-- The tail of `_show_current`: on decode failure only a status message is
shown (state unchanged), on success the viewer receives the pixmap. -/
def showLoaded (s : AppState) : Option QPixmap → AppState
  | none => s
  | some pix => { s with displayed := some pix }

/-- `MainWindow._show_current` (src/app.py:248-260): guards the index,
decodes, and on success hands the pixmap to the viewer; it never touches
`folder`, `files`, `index` or the favorites. `fs` supplies the decoder
environment for each path. -/
def show_current (fs : String → DecodeEnv) (s : AppState) : AppState :=
  if s.index < 0 ∨ (s.files.length : Int) ≤ s.index then s
  else
    let path := s.files.getD s.index.toNat ""
    showLoaded s (load_image path (fs path))

/-- `MainWindow.choose_folder` (src/app.py:220-235). `dialog` is the folder
dialog's result (`none` = cancelled) together with the filesystem traversal
of the chosen folder. Note the early return on an empty enumeration: the
folder and the (empty) file list are already installed, but `index` is
left at its previous value. -/
def choose_folder (fs : String → DecodeEnv) (s : AppState)
    (dialog : Option (String × List Entry)) : AppState :=
  match dialog with
  | none => s
  | some (f, entries) =>
    let files := enumerate entries
    let s1 := { s with folder := some f, files := files }
    if files = [] then s1
    else show_current fs { s1 with index := 0 }

/-- `MainWindow.next_image` (src/app.py:262-266). -/
def next_image (fs : String → DecodeEnv) (s : AppState) : AppState :=
  if s.files = [] then s
  else show_current fs { s with index := (s.index + 1) % (s.files.length : Int) }

/-- `MainWindow.prev_image` (src/app.py:268-272). -/
def prev_image (fs : String → DecodeEnv) (s : AppState) : AppState :=
  if s.files = [] then s
  else show_current fs { s with index := (s.index - 1) % (s.files.length : Int) }

/-- `MainWindow.toggle_favorite` (src/app.py:275-285): no-op without a
current selection; otherwise flips membership of the current path, saves
the favorites file and refreshes the display. -/
def toggle_favorite (resolve : String → String) (fs : String → DecodeEnv)
    (s : AppState) : AppState :=
  if s.files = [] ∨ s.index < 0 then s
  else
    let path := s.files.getD s.index.toNat ""
    let favs := toggle s.favorites path
    show_current fs
      { s with
        favorites := favs
        persisted := some (fav_json_payload resolve favs)
        writeCount := s.writeCount + 1 }

/-- The states reachable through the GUI event handlers, from a fresh
`MainWindow` over an arbitrary favorites file, with arbitrary dialog
results and decoder outcomes at every step. -/
inductive Reachable : AppState → Prop where
  | init : ∀ startup, Reachable (initState startup)
  | choose : ∀ s fs dialog, Reachable s → Reachable (choose_folder fs s dialog)
  | next : ∀ s fs, Reachable s → Reachable (next_image fs s)
  | prev : ∀ s fs, Reachable s → Reachable (prev_image fs s)
  | toggle : ∀ s resolve fs, Reachable s →
      Reachable (toggle_favorite resolve fs s)
  | display : ∀ s fs, Reachable s → Reachable (show_current fs s)

/-! ### Export engine (`MainWindow.export_favorites`, src/app.py:306-341) -/

/-- The candidate name `f"{stem}_{i}{suf}"` probed by the collision loop. -/
def mkAlt (stem suf : String) (i : Nat) : String :=
  stem ++ "_" ++ toString i ++ suf

/-- The `while True` probing loop: try `stem_i`, `stem_(i+1)`, … until a
name not present in the destination is found. The loop only consults the
finitely many existing names, so a fuel of `existing.length + 1` models it;
`none` (fuel exhausted) cannot occur on a real filesystem. -/
def probeAlt (existing : List String) (stem suf : String) :
    Nat → Nat → Option String
  | _, 0 => none
  | i, fuel + 1 =>
    let alt := mkAlt stem suf i
    if alt ∈ existing then probeAlt existing stem suf (i + 1) fuel
    else some alt

/-- Destination-name choice for one source file (src/app.py:325-334):
`dst = target / src.name`; if it exists, probe `_1`, `_2`, … from 1. -/
def choose_dst (existing : List String) (nm : String) : Option String :=
  if nm ∈ existing then
    probeAlt existing (stemOf nm) (suffixOf nm) 1 (existing.length + 1)
  else some nm

/-- `favs_in_folder` (src/app.py:311): favorites whose parent directory
resolves to the same canonical path as the active folder. -/
def export_filter (resolve : String → String) (favorites : List String)
    (folder : String) : List String :=
  favorites.filter (fun p => resolve (parentOf p) == resolve folder)

/-- Running result of the export loop: names now present in the
destination, number of files copied, sources whose copy raised. -/
structure ExportAcc where
  existing : List String
  copied : Nat
  errors : List String
deriving DecidableEq, Repr

/-- One iteration of the export loop (src/app.py:322-339): skip silently a
source that no longer exists; choose a collision-free destination name;
`shutil.copy2` either succeeds (the name now exists, the counter advances)
or raises (logged into `errors`, batch continues). -/
def export_step (existsSrc : String → Bool) (copyOk : String → Bool)
    (acc : ExportAcc) (src : String) : ExportAcc :=
  if existsSrc src then
    match choose_dst acc.existing (nameOf src) with
    | some dst =>
      if copyOk src then
        { existing := dst :: acc.existing
          copied := acc.copied + 1
          errors := acc.errors }
      else { acc with errors := acc.errors ++ [src] }
    | none => acc
  else acc

/-- `MainWindow.export_favorites`: no folder selected means nothing is
copied; otherwise the scoped favorites are copied one by one into the
destination, whose contents start as `destExisting`. `favorites` is the
iteration order of the in-memory set. -/
def export_favorites (resolve : String → String) (existsSrc copyOk : String → Bool)
    (folder : Option String) (favorites : List String)
    (destExisting : List String) : ExportAcc :=
  match folder with
  | none => ⟨destExisting, 0, []⟩
  | some f =>
    (export_filter resolve favorites f).foldl
      (export_step existsSrc copyOk) ⟨destExisting, 0, []⟩

/-! ### Derived notions and concrete scenarios used by the development -/

/-- The navigation invariant the code actually maintains: the index never
drops below `-1`, and whenever the file list is non-empty it is a valid
position. (When the list is empty a stale non-negative index can survive,
see the counterexample for C2.) -/
def NavInv (s : AppState) : Prop :=
  -1 ≤ s.index ∧ (s.files ≠ [] → 0 ≤ s.index ∧ s.index < (s.files.length : Int))

/-- A decoder environment in which every decode fails (the Qt reader
returns the null image, PIL raises); which one is in force is irrelevant
to the navigation claims. -/
def noDecodeEnv : String → DecodeEnv :=
  fun _ => ⟨.error (), .raster true 0, .error ()⟩

/-- First step of the C2 counterexample trace: open a folder holding one
image; the index becomes 0. -/
def c2StateA : AppState :=
  choose_folder noDecodeEnv (initState none) (some ("/a", [⟨"/a/x.jpg", .file⟩]))

/-- Second step: open a folder with no supported images. The code installs
the empty file list but returns before touching the index. -/
def c2StateB : AppState :=
  choose_folder noDecodeEnv c2StateA (some ("/b", []))

/-- One traversal order of a small folder (two images, one text file, one
subdirectory). -/
def c3TraversalA : List Entry :=
  [⟨"/f/b.jpg", .file⟩, ⟨"/f/sub", .dir⟩, ⟨"/f/a.PNG", .file⟩,
   ⟨"/f/notes.txt", .file⟩]

/-- The same folder traversed in a different order. -/
def c3TraversalB : List Entry :=
  [⟨"/f/a.PNG", .file⟩, ⟨"/f/notes.txt", .file⟩, ⟨"/f/b.jpg", .file⟩,
   ⟨"/f/sub", .dir⟩]

/-- A state with one image selected and no favorites yet. -/
def c5WitnessState : AppState :=
  { folder := some "/a", files := ["/a/x.jpg"], index := 0, favorites := [],
    displayed := none, persisted := none, writeCount := 0 }

/-- The canonicalization of a filesystem where `/d` is a symlink to `/a`. -/
def c5Resolve : String → String :=
  fun s => if s = "/d/b.jpg" then "/a/b.jpg" else s

/-- A state whose current image is `/d/b.jpg` (through the symlinked
folder) with `/c/x.jpg` already a favorite. -/
def c5CexState : AppState :=
  { folder := some "/d", files := ["/d/b.jpg"], index := 0,
    favorites := ["/c/x.jpg"], displayed := none, persisted := none,
    writeCount := 0 }

/-- The favorites-file states on which `_load_favorites` lands in the empty
set: file missing, unreadable/unparsable content, a non-object top level,
a missing "favorites" key (the `.get` default `[]` applies), a
non-iterable "favorites" value (number, boolean, null — iterating raises),
or a "favorites" iterable containing a non-string (Path() raises). A
string or object "favorites" value is iterable and is NOT in this class. -/
def badFavoritesFile : Option (Except Unit PyVal) → Bool
  | none => true
  | some (.error _) => true
  | some (.ok (.dict kvs)) =>
    match kvs.lookup "favorites" with
    | none => true
    | some v =>
      match v with
      | .list elems => (pathsOfVals elems).isNone
      | .str _ => false
      | .dict _ => false
      | _ => true
  | some (.ok _) => true

/-! ## Helper lemmas -/

theorem orientTransform_eq_spec (o : Int) :
    orientTransform o = specOrientMap o := by
  unfold orientTransform specOrientMap
  split_ifs <;> rfl

/-- `showLoaded` only touches the display. -/
theorem showLoaded_fields (s : AppState) (o : Option QPixmap) :
    (showLoaded s o).folder = s.folder
    ∧ (showLoaded s o).files = s.files
    ∧ (showLoaded s o).index = s.index
    ∧ (showLoaded s o).favorites = s.favorites
    ∧ (showLoaded s o).persisted = s.persisted
    ∧ (showLoaded s o).writeCount = s.writeCount := by
  cases o <;> exact ⟨rfl, rfl, rfl, rfl, rfl, rfl⟩

/-- `_show_current` never changes the navigation state, the favorites or
the persisted file: it only (possibly) updates the display. -/
theorem show_current_fields (fs : String → DecodeEnv) (s : AppState) :
    (show_current fs s).folder = s.folder
    ∧ (show_current fs s).files = s.files
    ∧ (show_current fs s).index = s.index
    ∧ (show_current fs s).favorites = s.favorites
    ∧ (show_current fs s).persisted = s.persisted
    ∧ (show_current fs s).writeCount = s.writeCount := by
  unfold show_current
  split
  · exact ⟨rfl, rfl, rfl, rfl, rfl, rfl⟩
  · exact showLoaded_fields s _

/-- A list of JSON strings survives the loader's `Path(p)` mapping. -/
theorem pathsOfVals_map_str (l : List String) :
    pathsOfVals (l.map PyVal.str) = some l := by
  induction l with
  | nil => rfl
  | cons a l ih => simp [pathsOfVals, pathOfVal, ih]

/-- Same, through an arbitrary string-producing map. -/
theorem pathsOfVals_strs {α : Type} (f : α → String) (l : List α) :
    pathsOfVals (l.map (fun a => PyVal.str (f a))) = some (l.map f) := by
  induction l with
  | nil => rfl
  | cons a l ih => simp [pathsOfVals, pathOfVal, ih]

/-- Loading the payload written by `_fav_json_payload` yields the
(deduplicated) resolved strings. -/
theorem load_of_payload (resolve : String → String) (favs : List String) :
    load_favorites (some (.ok (fav_json_payload resolve favs)))
      = (payload_strings resolve favs).dedup := by
  show (match pathsOfVals ((payload_strings resolve favs).map PyVal.str) with
        | none => ([] : List String)
        | some paths => paths.dedup) = (payload_strings resolve favs).dedup
  rw [pathsOfVals_map_str]

theorem navInv_of_fields {s t : AppState} (hi : s.index = t.index)
    (hf : s.files = t.files) (h : NavInv t) : NavInv s := by
  unfold NavInv
  rw [hi, hf]
  exact h

theorem navInv_show (fs : String → DecodeEnv) {s : AppState}
    (h : NavInv s) : NavInv (show_current fs s) :=
  navInv_of_fields (show_current_fields fs s).2.2.1 (show_current_fields fs s).2.1 h

/-- Every state reachable through the event handlers satisfies `NavInv`. -/
theorem reachable_navInv {s : AppState} (h : Reachable s) : NavInv s := by
  induction h with
  | init startup =>
    exact ⟨by norm_num [initState], fun hne => absurd rfl hne⟩
  | choose s fs dialog hr ih =>
    cases dialog with
    | none => exact ih
    | some fd =>
      obtain ⟨f, entries⟩ := fd
      simp only [choose_folder]
      by_cases he : enumerate entries = []
      · rw [if_pos he]
        exact ⟨ih.1, fun hne => absurd he hne⟩
      · rw [if_neg he]
        refine navInv_show fs ⟨?_, fun _ => ⟨?_, ?_⟩⟩
        · show (-1 : Int) ≤ 0
          norm_num
        · show (0 : Int) ≤ 0
          norm_num
        · show (0 : Int) < ((enumerate entries).length : Int)
          exact_mod_cast List.length_pos.mpr he
  | next s fs hr ih =>
    simp only [next_image]
    by_cases he : s.files = []
    · rw [if_pos he]; exact ih
    · rw [if_neg he]
      have hn : (0 : Int) < (s.files.length : Int) := by
        exact_mod_cast List.length_pos.mpr he
      refine navInv_show fs ⟨?_, fun _ => ⟨?_, ?_⟩⟩
      · show (-1 : Int) ≤ (s.index + 1) % (s.files.length : Int)
        have := Int.emod_nonneg (s.index + 1) (by omega : (s.files.length : Int) ≠ 0)
        omega
      · exact Int.emod_nonneg _ (by omega)
      · exact Int.emod_lt_of_pos _ hn
  | prev s fs hr ih =>
    simp only [prev_image]
    by_cases he : s.files = []
    · rw [if_pos he]; exact ih
    · rw [if_neg he]
      have hn : (0 : Int) < (s.files.length : Int) := by
        exact_mod_cast List.length_pos.mpr he
      refine navInv_show fs ⟨?_, fun _ => ⟨?_, ?_⟩⟩
      · show (-1 : Int) ≤ (s.index - 1) % (s.files.length : Int)
        have := Int.emod_nonneg (s.index - 1) (by omega : (s.files.length : Int) ≠ 0)
        omega
      · exact Int.emod_nonneg _ (by omega)
      · exact Int.emod_lt_of_pos _ hn
  | toggle s resolve fs hr ih =>
    simp only [toggle_favorite]
    split
    · exact ih
    · exact navInv_show fs ih
  | display s fs hr ih => exact navInv_show fs ih

/-! ## Claims -/

/-- C1: for every image file, the orientation transform computed from its
embedded metadata matches the documented 8-way mapping (1 identity,
2 mirror-horizontal, 3 rotate-180, 4 mirror-vertical, 5 transpose,
6 rotate-90-CW, 7 transverse, 8 rotate-90-CCW); if the tag is absent, the
format has no metadata, or parsing raises any error, the result is the
identity transform and no error propagates to the caller (the function is
total and lands in `M2.id` in all those cases). -/
theorem c1_orientation_matches_spec (r : Except Unit (List (Nat × Int))) :
    apply_exif_orientation r = specOrientOf r := by
  unfold apply_exif_orientation specOrientOf
  cases r with
  | error e => rfl
  | ok exif =>
    cases h : lookupOrientation exif with
    | none => simp [h]
    | some o => simpa [h] using orientTransform_eq_spec o

/-- C2 (amended): in every reachable state the index never drops below -1
and is a valid position whenever the file list is non-empty; selectFolder
produces index 0 when the fresh file list is non-empty, but when the fresh
list is empty it leaves the previous index unchanged (so a stale index ≥ 0
can coexist with an empty list — the original "index is exactly -1 on an
empty fresh list" fails, see the counterexample); next()/previous() keep
the invariant and are no-ops on an empty list. -/
theorem c2_navigation_bounds (s : AppState) (h : Reachable s) :
    NavInv s
    ∧ (∀ fs f entries, enumerate entries ≠ [] →
        (choose_folder fs s (some (f, entries))).index = 0)
    ∧ (∀ fs f entries, enumerate entries = [] →
        (choose_folder fs s (some (f, entries))).index = s.index
        ∧ (choose_folder fs s (some (f, entries))).files = [])
    ∧ (∀ fs, s.files = [] → next_image fs s = s ∧ prev_image fs s = s)
    ∧ (∀ fs, NavInv (next_image fs s) ∧ NavInv (prev_image fs s)) := by
  refine ⟨reachable_navInv h, ?_, ?_, ?_, ?_⟩
  · intro fs f entries he
    simp only [choose_folder]
    rw [if_neg he]
    exact (show_current_fields fs _).2.2.1
  · intro fs f entries he
    simp only [choose_folder]
    rw [if_pos he, he]
    exact ⟨rfl, rfl⟩
  · intro fs he
    constructor
    · simp only [next_image]
      rw [if_pos he]
    · simp only [prev_image]
      rw [if_pos he]
  · intro fs
    exact ⟨reachable_navInv (Reachable.next s fs h),
           reachable_navInv (Reachable.prev s fs h)⟩

theorem c2_navigation_bounds_witness :
    -1 ≤ (initState none).index :=
  (c2_navigation_bounds (initState none) (Reachable.init none)).1.1

/-- C2 counterexample: a reachable state whose file list is empty while the
index is 0, not -1 — `selectFolder` on an empty fresh list does not reset
the index, and the claimed invariant `index ∈ [-1, len-1]` fails. -/
theorem c2_navigation_bounds_cex :
    Reachable c2StateB ∧ c2StateB.files = [] ∧ c2StateB.index = 0
    ∧ c2StateB.index ≠ -1 := by
  refine ⟨?_, rfl, rfl, by decide⟩
  exact Reachable.choose _ _ _ (Reachable.choose _ _ _ (Reachable.init none))

/-- C10: when there is no current selection (empty file list or index -1),
toggling the favorite is a no-op: the state (in particular the in-memory
favorites set) is unchanged and no write to the favorites file happens
(the write counter does not advance). -/
theorem c10_toggle_no_selection (resolve : String → String)
    (fs : String → DecodeEnv) (s : AppState)
    (h : s.files = [] ∨ s.index = -1) :
    toggle_favorite resolve fs s = s
    ∧ (toggle_favorite resolve fs s).favorites = s.favorites
    ∧ (toggle_favorite resolve fs s).writeCount = s.writeCount := by
  have hg : s.files = [] ∨ s.index < 0 := by
    rcases h with h | h
    · exact Or.inl h
    · exact Or.inr (by omega)
  have he : toggle_favorite resolve fs s = s := by
    simp only [toggle_favorite]
    rw [if_pos hg]
  exact ⟨he, by rw [he], by rw [he]⟩

theorem c10_toggle_no_selection_witness :
    toggle_favorite (fun p => p) noDecodeEnv (initState none) = initState none :=
  (c10_toggle_no_selection (fun p => p) noDecodeEnv (initState none)
    (Or.inl rfl)).1

/-- C3 (amended): enumeration returns exactly the entries that pass
`is_file()` (regular files, including through symlinks; directories and
symlinks-to-directories fail it) and whose lowercased extension is
supported, sorted ascending in pathlib's component-wise path order
(`pyPathLe`) — NOT by full path string, from which it differs when a
subdirectory name is a proper prefix of a sibling file name, see the
counterexample; with N qualifying and M non-qualifying entries the result
has exactly N entries, and any two traversal orders of the same folder
yield the same result. -/
theorem c3_enumerate_exact (e₁ e₂ : List Entry) (hp : e₁.Perm e₂) :
    enumerate e₁ = enumerate e₂
    ∧ (enumerate e₁).length = (e₁.filter qualifies).length
    ∧ List.Sorted pyPathLe (enumerate e₁)
    ∧ (∀ p, p ∈ enumerate e₁ ↔ ∃ e, e ∈ e₁ ∧ qualifies e = true ∧ e.path = p) := by
  refine ⟨?_, ?_, List.sorted_insertionSort pyPathLe _, ?_⟩
  · have h1 : (enumerate e₁).Perm ((e₂.filter qualifies).map Entry.path) :=
      (List.perm_insertionSort pyPathLe _).trans ((hp.filter qualifies).map Entry.path)
    have h2 : (enumerate e₁).Perm (enumerate e₂) :=
      h1.trans (List.perm_insertionSort pyPathLe _).symm
    exact List.eq_of_perm_of_sorted h2 (List.sorted_insertionSort pyPathLe _)
      (List.sorted_insertionSort pyPathLe _)
  · exact ((List.perm_insertionSort pyPathLe _).length_eq).trans
      (List.length_map _ _)
  · intro p
    unfold enumerate
    rw [(List.perm_insertionSort pyPathLe _).mem_iff]
    simp only [List.mem_map, List.mem_filter]
    constructor
    · rintro ⟨e, ⟨he, hq⟩, hpath⟩
      exact ⟨e, he, hq, hpath⟩
    · rintro ⟨e, he, hq, hpath⟩
      exact ⟨e, ⟨he, hq⟩, hpath⟩

theorem c3_enumerate_exact_witness :
    enumerate c3TraversalA = enumerate c3TraversalB
    ∧ (enumerate c3TraversalA).length = (c3TraversalA.filter qualifies).length :=
  ⟨(c3_enumerate_exact c3TraversalA c3TraversalB (by decide)).1,
   (c3_enumerate_exact c3TraversalA c3TraversalB (by decide)).2.1⟩

/-- C3 counterexample: `sorted()` compares `Path` components, so a folder
holding the image `a.jpg` next to a subfolder `a` with an image yields
`["/f/a/x.jpg", "/f/a.jpg"]` — the component `a` sorts before `a.jpg` —
which is NOT ascending by full path string (`"/f/a.jpg" < "/f/a/x.jpg"`
as strings, since `'.' < '/'`): the claim's sort order is refuted. -/
theorem c3_enumerate_exact_cex :
    enumerate [⟨"/f/a.jpg", .file⟩, ⟨"/f/a/x.jpg", .file⟩]
      = ["/f/a/x.jpg", "/f/a.jpg"]
    ∧ ¬ List.Sorted pyLe ["/f/a/x.jpg", "/f/a.jpg"]
    ∧ pyLe "/f/a.jpg" "/f/a/x.jpg" := by
  refine ⟨by decide, by decide, by decide⟩

/-- C4 (amended): for a path already in canonical form (`resolve p = p`,
i.e. the stored `str(p.resolve())` round-trips to `p`) and not yet a
favorite, toggling `p` and then loading the store in a fresh instance
reports `p` as a favorite; toggling the same path twice always returns the
favorites set to its original membership. (For a non-canonical path the
store persists `resolve p`, not `p`, and the reload misses `p` — see the
counterexample.) -/
theorem c4_favorites_roundtrip (resolve : String → String) (favs : List String)
    (p : String) (hnd : favs.Nodup) (hr : resolve p = p) :
    (p ∉ favs →
      p ∈ load_favorites (some (.ok (fav_json_payload resolve (toggle favs p)))))
    ∧ (∀ q, q ∈ toggle (toggle favs p) p ↔ q ∈ favs) := by
  constructor
  · intro hp
    rw [load_of_payload, List.mem_dedup]
    have hmem : p ∈ fav_sorted (toggle favs p) := by
      rw [fav_sorted, (List.perm_insertionSort pyPathLe _).mem_iff]
      simp only [toggle]
      rw [if_neg hp]
      simp
    exact List.mem_map.mpr ⟨p, hmem, hr⟩
  · intro q
    by_cases hpm : p ∈ favs
    · have ht1 : toggle favs p = favs.erase p := by
        simp only [toggle]
        rw [if_pos hpm]
      have hne : p ∉ favs.erase p := by
        intro hcon
        exact (hnd.mem_erase_iff.mp hcon).1 rfl
      have ht2 : toggle (favs.erase p) p = favs.erase p ++ [p] := by
        simp only [toggle]
        rw [if_neg hne]
      rw [ht1, ht2]
      simp only [List.mem_append, List.mem_singleton]
      constructor
      · rintro (hq | rfl)
        · exact List.mem_of_mem_erase hq
        · exact hpm
      · intro hq
        by_cases hqp : q = p
        · exact Or.inr hqp
        · exact Or.inl ((List.mem_erase_of_ne hqp).mpr hq)
    · have ht1 : toggle favs p = favs ++ [p] := by
        simp only [toggle]
        rw [if_neg hpm]
      have hin : p ∈ favs ++ [p] := by simp
      have ht2 : toggle (favs ++ [p]) p = favs := by
        simp only [toggle]
        rw [if_pos hin, List.erase_append_right _ hpm, List.erase_cons_head,
          List.append_nil]
      rw [ht1, ht2]

theorem c4_favorites_roundtrip_witness :
    "/pics/a.jpg" ∈ load_favorites (some (.ok (fav_json_payload
      (fun p => p) (toggle [] "/pics/a.jpg")))) :=
  (c4_favorites_roundtrip (fun p => p) [] "/pics/a.jpg" List.nodup_nil
    rfl).1 (by decide)

/-- C4 counterexample: on a filesystem where `/link` is a symlink to
`/real`, toggling the (absolute, but not canonical) path `/link/a.jpg`
persists `str(p.resolve()) = "/real/a.jpg"`, so a fresh load does not
contain `/link/a.jpg`: the claimed round trip fails. -/
theorem c4_favorites_roundtrip_cex :
    "/link/a.jpg" ∉ load_favorites (some (.ok (fav_json_payload
      (fun s => if s = "/link/a.jpg" then "/real/a.jpg" else s)
      (toggle [] "/link/a.jpg")))) := by decide

/-- C5 (amended): after a toggle with a current selection, the persisted
file is a full rewrite of the JSON object whose "favorites" list is
`[str(p.resolve()) for p in sorted(favorites)]`; when every favorite is
already canonical (`resolve p = p`) this list is exactly the in-memory
membership with no duplicates, ascending in pathlib's component-wise path
order (`pyPathLe`) — which is the order `sorted()` actually uses on `Path`
objects, and differs from full-string ascending when a subdirectory name
is a proper prefix of a sibling file name. (With non-canonical favorites
the written strings are the resolved forms, which need not be sorted in
any order, duplicate-free, or equal to the membership — see the
counterexample.) -/
theorem c5_payload_exact (resolve : String → String) (fs : String → DecodeEnv)
    (s : AppState) (favs' : List String)
    (hne : s.files ≠ []) (hidx : 0 ≤ s.index)
    (hf : favs' = toggle s.favorites (s.files.getD s.index.toNat ""))
    (hnd : favs'.Nodup)
    (hcanon : ∀ p ∈ favs', resolve p = p) :
    (toggle_favorite resolve fs s).persisted
      = some (.dict [("favorites", .list ((fav_sorted favs').map PyVal.str))])
    ∧ List.Sorted pyPathLe (fav_sorted favs')
    ∧ (fav_sorted favs').Nodup
    ∧ (∀ q, q ∈ fav_sorted favs' ↔ q ∈ favs') := by
  have hguard : ¬(s.files = [] ∨ s.index < 0) := by
    rintro (h | h)
    · exact hne h
    · omega
  have hstep :
      toggle_favorite resolve fs s
        = show_current fs
            { s with
              favorites := toggle s.favorites (s.files.getD s.index.toNat "")
              persisted := some (fav_json_payload resolve
                (toggle s.favorites (s.files.getD s.index.toNat "")))
              writeCount := s.writeCount + 1 } := by
    simp only [toggle_favorite]
    rw [if_neg hguard]
  have hps : payload_strings resolve favs' = fav_sorted favs' := by
    have hmem : ∀ p ∈ fav_sorted favs', resolve p = p := fun p hp =>
      hcanon p ((List.perm_insertionSort pyPathLe favs').mem_iff.mp hp)
    calc payload_strings resolve favs'
        = (fav_sorted favs').map (fun p => p) := List.map_congr_left hmem
      _ = fav_sorted favs' := List.map_id' _
  refine ⟨?_, List.sorted_insertionSort pyPathLe _,
    (List.perm_insertionSort pyPathLe favs').nodup_iff.mpr hnd,
    fun q => (List.perm_insertionSort pyPathLe favs').mem_iff⟩
  rw [hstep, (show_current_fields fs _).2.2.2.2.1]
  show some (fav_json_payload resolve (toggle s.favorites
    (s.files.getD s.index.toNat ""))) = _
  rw [← hf]
  unfold fav_json_payload
  rw [hps]

theorem c5_payload_exact_witness :
    (toggle_favorite (fun p => p) noDecodeEnv c5WitnessState).persisted
      = some (.dict [("favorites",
          .list ((fav_sorted ["/a/x.jpg"]).map PyVal.str))]) :=
  (c5_payload_exact (fun p => p) noDecodeEnv c5WitnessState ["/a/x.jpg"]
    (by decide) (by decide) (by decide) (by decide) (fun p _ => rfl)).1

/-- C5 counterexample: after the toggle the persisted list is
`["/c/x.jpg", "/a/b.jpg"]` — the resolved forms in the sort order of the
unresolved paths — which is not ascending and contains `/a/b.jpg`, a string
that is not in the in-memory membership `["/c/x.jpg", "/d/b.jpg"]`. -/
theorem c5_payload_exact_cex :
    (toggle_favorite c5Resolve noDecodeEnv c5CexState).persisted
      = some (.dict [("favorites", .list [.str "/c/x.jpg", .str "/a/b.jpg"])])
    ∧ ¬ List.Sorted pyLe ["/c/x.jpg", "/a/b.jpg"]
    ∧ "/a/b.jpg" ∉ (toggle_favorite c5Resolve noDecodeEnv c5CexState).favorites :=
  ⟨rfl, by decide, by decide⟩

/-- C6 (amended): loading the favorites store returns the empty set —
without propagating any error — whenever the file is missing, its content
is malformed, the top level is not an object, the "favorites" key is
missing (the `.get` default `[]` applies), its value is non-iterable, or
any element is not a string. However, a wrong-typed but iterable value is
iterated, not rejected: a string value yields the set of its characters as
one-character paths (second conjunct), so "wrong type ⇒ empty set" does not
hold in general — see the counterexample. -/
theorem c6_load_error_handling :
    (∀ fr, badFavoritesFile fr = true → load_favorites fr = [])
    ∧ (∀ kvs s, kvs.lookup "favorites" = some (.str s) →
        load_favorites (some (.ok (.dict kvs)))
          = (s.data.map (fun c => String.mk [c])).dedup) := by
  constructor
  · intro fr h
    match fr with
    | none => rfl
    | some (.error e) => rfl
    | some (.ok .null) => rfl
    | some (.ok (.bool b)) => rfl
    | some (.ok (.int n)) => rfl
    | some (.ok (.str s)) => rfl
    | some (.ok (.list xs)) => rfl
    | some (.ok (.dict kvs)) =>
      have hload : load_favorites (some (.ok (.dict kvs)))
          = (match pyIter ((kvs.lookup "favorites").getD (.list [])) with
             | none => []
             | some elems =>
               match pathsOfVals elems with
               | none => []
               | some paths => paths.dedup) := rfl
      have hbad : badFavoritesFile (some (.ok (.dict kvs)))
          = (match kvs.lookup "favorites" with
             | none => true
             | some v =>
               match v with
               | .list elems => (pathsOfVals elems).isNone
               | .str _ => false
               | .dict _ => false
               | _ => true) := rfl
      rw [hload]
      rw [hbad] at h
      cases hv : kvs.lookup "favorites" with
      | none => rfl
      | some v =>
        rw [hv] at h
        cases v with
        | null => rfl
        | bool b => rfl
        | int n => rfl
        | str s => simp at h
        | dict kvs2 => simp at h
        | list elems =>
          have h' : (pathsOfVals elems).isNone = true := h
          have hn : pathsOfVals elems = none := by
            cases hpv : pathsOfVals elems with
            | none => rfl
            | some l => rw [hpv] at h'; simp [Option.isNone] at h'
          show (match pathsOfVals elems with
                | none => ([] : List String)
                | some paths => paths.dedup) = []
          rw [hn]
  · intro kvs s hlk
    have hload : load_favorites (some (.ok (.dict kvs)))
        = (match pyIter ((kvs.lookup "favorites").getD (.list [])) with
           | none => []
           | some elems =>
             match pathsOfVals elems with
             | none => []
             | some paths => paths.dedup) := rfl
    rw [hload, hlk]
    show (match pathsOfVals (s.data.map (fun c => PyVal.str (String.mk [c]))) with
          | none => ([] : List String)
          | some paths => paths.dedup)
        = (s.data.map (fun c => String.mk [c])).dedup
    rw [pathsOfVals_strs (fun c => String.mk [c]) s.data]

theorem c6_load_error_handling_witness :
    load_favorites (some (.ok (.dict [("favorites", .int 7)]))) = [] :=
  c6_load_error_handling.1 (some (.ok (.dict [("favorites", .int 7)])))
    (by decide)

/-- C6 counterexample: a "favorites" value of the wrong type that is
nevertheless iterable — the string "ab" — does not degrade to the empty
set: the loader returns the two one-character paths `a` and `b`. -/
theorem c6_load_error_handling_cex :
    load_favorites (some (.ok (.dict [("favorites", .str "ab")]))) ≠ [] := by
  decide

/-- The probing loop returns the first unused candidate: the result is
`stem_k suf` for some `k ≥ i`, that name is unused, and every candidate
strictly between `i` and `k` is in use. -/
theorem probeAlt_first (ex : List String) (st sf : String) :
    ∀ fuel i dst, probeAlt ex st sf i fuel = some dst →
      ∃ k, i ≤ k ∧ dst = mkAlt st sf k ∧ mkAlt st sf k ∉ ex
        ∧ ∀ j, i ≤ j → j < k → mkAlt st sf j ∈ ex := by
  intro fuel
  induction fuel with
  | zero =>
    intro i dst h
    exact absurd h (by simp [probeAlt])
  | succ fuel ih =>
    intro i dst h
    by_cases hm : mkAlt st sf i ∈ ex
    · have hrec : probeAlt ex st sf (i + 1) fuel = some dst := by
        simpa [probeAlt, hm] using h
      obtain ⟨k, hik, hdst, hnm, hall⟩ := ih (i + 1) dst hrec
      refine ⟨k, by omega, hdst, hnm, ?_⟩
      intro j hij hjk
      by_cases hji : j = i
      · rw [hji]; exact hm
      · exact hall j (by omega) hjk
    · have hd : dst = mkAlt st sf i := by
        have h' : some (mkAlt st sf i) = some dst := by
          simpa [probeAlt, hm] using h
        exact (Option.some.inj h').symm
      exact ⟨i, le_refl i, hd, hm, fun j hij hjk => absurd hjk (by omega)⟩

/-- The chosen destination name is never one that already exists. -/
theorem choose_dst_not_mem (ex : List String) (nm dst : String)
    (h : choose_dst ex nm = some dst) : dst ∉ ex := by
  by_cases hm : nm ∈ ex
  · have h' : probeAlt ex (stemOf nm) (suffixOf nm) 1 (ex.length + 1)
        = some dst := by
      simpa [choose_dst, hm] using h
    obtain ⟨k, _, hdst, hnm, _⟩ := probeAlt_first ex _ _ _ 1 dst h'
    rw [hdst]
    exact hnm
  · have h' : some nm = some dst := by simpa [choose_dst, hm] using h
    rw [← Option.some.inj h']
    exact hm

/-- C7: export collision handling. The destination name chosen for a
source never overwrites an existing file; when the plain name collides the
loop probes `_1`, `_2`, … sequentially and takes the first unused one;
concretely, with `photo.jpg` present the export of a favorite named
`photo.jpg` lands in `photo_1.jpg`, and a second such export in the same
run (destination now holding `photo.jpg` and `photo_1.jpg`) lands in
`photo_2.jpg`. -/
theorem c7_export_collision_names :
    (∀ existing nm dst, choose_dst existing nm = some dst → dst ∉ existing)
    ∧ (∀ existing st sf i fuel dst,
        probeAlt existing st sf i fuel = some dst →
        ∃ k, i ≤ k ∧ dst = mkAlt st sf k ∧ mkAlt st sf k ∉ existing
          ∧ ∀ j, i ≤ j → j < k → mkAlt st sf j ∈ existing)
    ∧ choose_dst ["photo.jpg"] "photo.jpg" = some "photo_1.jpg"
    ∧ choose_dst ["photo.jpg", "photo_1.jpg"] "photo.jpg" = some "photo_2.jpg"
    ∧ export_favorites (fun p => p) (fun _ => true) (fun _ => true) (some "/f")
        ["/f/photo.jpg"] ["photo.jpg"]
        = ⟨["photo_1.jpg", "photo.jpg"], 1, []⟩
    ∧ export_favorites (fun p => p) (fun _ => true) (fun _ => true) (some "/f")
        ["/f/photo.jpg"] ["photo_1.jpg", "photo.jpg"]
        = ⟨["photo_2.jpg", "photo_1.jpg", "photo.jpg"], 1, []⟩ :=
  ⟨choose_dst_not_mem, fun ex st sf i fuel dst h => probeAlt_first ex st sf fuel i dst h,
   by decide, by decide, by decide, by decide⟩

theorem c7_export_collision_names_witness :
    "photo_1.jpg" ∉ ["photo.jpg"] :=
  c7_export_collision_names.1 ["photo.jpg"] "photo.jpg" "photo_1.jpg"
    (by decide)

/-- Removing a favorite that fails the parent-folder test does not change
the scoped batch. -/
theorem export_filter_erase (resolve : String → String) (f p : String)
    (hp : resolve (parentOf p) ≠ resolve f) (favs : List String) :
    export_filter resolve (favs.filter (fun q => q != p)) f
      = export_filter resolve favs f := by
  unfold export_filter
  rw [List.filter_filter]
  apply List.filter_congr
  intro a _
  by_cases hap : a = p
  · subst hap
    have h1 : (resolve (parentOf a) == resolve f) = false :=
      beq_eq_false_iff_ne.mpr hp
    have h2 : (a != a) = false := by simp
    rw [h1, h2]
    rfl
  · have : (a != p) = true := bne_iff_ne.mpr hap
    rw [this, Bool.and_true]

/-- Sources reported as copy errors all come from the batch (or from the
initial accumulator). -/
theorem export_errors_sub (es co : String → Bool) :
    ∀ (srcs : List String) (acc : ExportAcc) (x : String),
      x ∈ (srcs.foldl (export_step es co) acc).errors →
      x ∈ acc.errors ∨ x ∈ srcs := by
  intro srcs
  induction srcs with
  | nil =>
    intro acc x h
    exact Or.inl h
  | cons a srcs ih =>
    intro acc x h
    rcases ih (export_step es co acc a) x h with h' | h'
    · have hstep : (export_step es co acc a).errors = acc.errors
          ∨ (export_step es co acc a).errors = acc.errors ++ [a] := by
        unfold export_step
        split
        · split
          · split
            · exact Or.inl rfl
            · exact Or.inr rfl
          · exact Or.inl rfl
        · exact Or.inl rfl
      rcases hstep with he | he
      · rw [he] at h'
        exact Or.inl h'
      · rw [he] at h'
        rcases List.mem_append.mp h' with h'' | h''
        · exact Or.inl h''
        · rw [List.mem_singleton.mp h'']
          exact Or.inr (List.mem_cons_self a srcs)
    · exact Or.inr (List.mem_cons_of_mem a h')

/-- C8: export copies only favorites whose parent directory, after
canonicalization, equals the (canonicalized) active folder: any other
favorite — including one in a subfolder of the active folder — is excluded
from the batch, contributes nothing to the result (removing it changes
neither the copies, the count, nor the errors), and is never reported as
an error. -/
theorem c8_export_scoping (resolve : String → String)
    (existsSrc copyOk : String → Bool) (f : String) (favs : List String)
    (dest : List String) (p : String)
    (hp : resolve (parentOf p) ≠ resolve f) :
    p ∉ export_filter resolve favs f
    ∧ export_favorites resolve existsSrc copyOk (some f) favs dest
        = export_favorites resolve existsSrc copyOk (some f)
            (favs.filter (fun q => q != p)) dest
    ∧ p ∉ (export_favorites resolve existsSrc copyOk (some f) favs dest).errors := by
  have h1 : p ∉ export_filter resolve favs f := by
    intro hmem
    have hmem' : p ∈ favs.filter
        (fun q => resolve (parentOf q) == resolve f) := hmem
    have hb : (resolve (parentOf p) == resolve f) = true :=
      (List.mem_filter.mp hmem').2
    exact hp (eq_of_beq hb)
  refine ⟨h1, ?_, ?_⟩
  · simp only [export_favorites]
    rw [export_filter_erase resolve f p hp favs]
  · intro hmem
    have hmem' : p ∈ ((export_filter resolve favs f).foldl
        (export_step existsSrc copyOk) ⟨dest, 0, []⟩).errors := hmem
    rcases export_errors_sub existsSrc copyOk (export_filter resolve favs f)
        ⟨dest, 0, []⟩ p hmem' with h' | h'
    · simp at h'
    · exact h1 h'

theorem c8_export_scoping_witness :
    "/f/sub/x.jpg" ∉ export_filter (fun p => p) ["/f/a.jpg", "/f/sub/x.jpg"] "/f" :=
  (c8_export_scoping (fun p => p) (fun _ => true) (fun _ => true) "/f"
    ["/f/a.jpg", "/f/sub/x.jpg"] [] "/f/sub/x.jpg" (by decide)).1

/-- C9: decoding always returns either an image or a typed failure
(`Option` — the match is total over every backend outcome, so no error
escapes `load_image`): a raised PIL exception on the HEIC path and a null
Qt image on the generic path both land in `none`; and `_show_current`
leaves the navigation state (`folder`, `files`, `index`) unchanged, in
particular on decode failure. -/
theorem c9_decode_typed_failure (path : String) (env : DecodeEnv)
    (fs : String → DecodeEnv) (s : AppState) :
    (load_image path env = none ∨ (load_image path env).isSome = true)
    ∧ ((lowerStr (suffixOf path) = ".heic" ∨ lowerStr (suffixOf path) = ".heif") →
        ∀ e, env.pilOpen = .error e → load_image path env = none)
    ∧ (¬(lowerStr (suffixOf path) = ".heic" ∨ lowerStr (suffixOf path) = ".heif") →
        env.qtRead.isNull = true → load_image path env = none)
    ∧ (show_current fs s).folder = s.folder
    ∧ (show_current fs s).files = s.files
    ∧ (show_current fs s).index = s.index := by
  refine ⟨?_, ?_, ?_, (show_current_fields fs s).1,
    (show_current_fields fs s).2.1, (show_current_fields fs s).2.2.1⟩
  · cases h : load_image path env with
    | none => exact Or.inl rfl
    | some pix => exact Or.inr rfl
  · intro hext e hp
    simp only [load_image]
    rw [if_pos hext, hp]
  · intro hext hn
    simp only [load_image]
    rw [if_neg hext, if_pos hn]

theorem c9_decode_typed_failure_witness :
    load_image "/a/t.heic" ⟨.error (), .raster true 0, .error ()⟩ = none :=
  (c9_decode_typed_failure "/a/t.heic" ⟨.error (), .raster true 0, .error ()⟩
    noDecodeEnv (initState none)).2.1 (by decide) () rfl

end FWin
